import Mathlib

/-
Verification of the metadata-parsing core of RimSort
(src/app/models/metadata/metadata_factory.py) against its natural-language
specification.  The descriptor tree, the value extractor, the version
matcher, the record builder, the rule builder and the entry point are
embedded as executable Lean definitions; the classes from
app/models/metadata/metadata_structure.py and the official-content table
from app/utils/constants.py are not part of the provided sources and are
modelled from the specification and from the repository's own tests
(src/tests/models/metadata/test_metadata_structure.py).
-/

/-- A deserialized descriptor tree node: the value space that
metadata_factory.py manipulates.  Besides strings, sequences and mappings
it includes the Python sentinels the module passes around: `bool false`
for an absent key (`mod_data.get(key, False)`) and `null` for Python
`None` (e.g. an empty XML element). -/
inductive Node where
  | str (s : String)
  | list (xs : List Node)
  | dict (xs : List (String × Node))
  | bool (b : Bool)
  | null

/-- A descriptor mapping (a Python dict with string keys and unique keys,
in insertion order). -/
abbrev Dict := List (String × Node)

mutual

/-- Structural equality of descriptor nodes (Python `==` on the tree
values this module manipulates). -/
def Node.beq : Node → Node → Bool
  | .str a, .str b => a == b
  | .list xs, .list ys => nodeListBeq xs ys
  | .dict xs, .dict ys => nodeDictBeq xs ys
  | .bool a, .bool b => a == b
  | .null, .null => true
  | _, _ => false

/-- Elementwise `Node.beq` on node lists. -/
def nodeListBeq : List Node → List Node → Bool
  | [], [] => true
  | x :: xs, y :: ys => Node.beq x y && nodeListBeq xs ys
  | _, _ => false

/-- Entrywise `Node.beq` on mappings. -/
def nodeDictBeq : List (String × Node) → List (String × Node) → Bool
  | [], [] => true
  | (k, v) :: xs, (l, w) :: ys => k == l && Node.beq v w && nodeDictBeq xs ys
  | _, _ => false

end

/-- First-match association-list lookup: Python `dict[key]` / `key in dict`
on a mapping with unique keys. -/
def alookup {β : Type} (key : String) : List (String × β) → Option β
  | [] => none
  | (a, b) :: rest => if a = key then some b else alookup key rest

/-- Python `mod_data.get(key, default)`. -/
def dget (d : Dict) (key : String) (dflt : Node) : Node :=
  (alookup key d).getD dflt

/-- Character-list test: does the second list start with the first one
(Python `re.match` of a metacharacter-free pattern, anchored at the
start)? -/
def startsChars : List Char → List Char → Bool
  | [], _ => true
  | _ :: _, [] => false
  | p :: ps, c :: cs => (p == c) && startsChars ps cs

/-- Substring test over character lists (Python `pat in s`). -/
def hasSub (pat : List Char) : List Char → Bool
  | [] => pat.isEmpty
  | c :: cs => startsChars pat (c :: cs) || hasSub pat cs

/-- Python `pat in s` on strings. -/
def containsSub (s pat : String) : Bool :=
  hasSub pat.data s.data

/-- Python `s.lower()` (ASCII case folding; the repository's tests only
exercise ASCII letters and case-less characters). -/
def lowerStr (s : String) : String :=
  String.mk (s.data.map Char.toLower)

/-- Python `s.split(".")`. -/
def splitDotAux : List Char → List Char → List String
  | [], acc => [String.mk acc.reverse]
  | c :: cs, acc =>
    if c == '.' then String.mk acc.reverse :: splitDotAux cs []
    else splitDotAux cs (c :: acc)

/-- The first two dot-separated components of a target version string:
Python `major, minor = target_version.split(".")[:2]`, which raises
`ValueError` (here: `none`) when the string has no dot. -/
def splitTarget (target_version : String) : Option (String × String) :=
  match splitDotAux target_version.data [] with
  | mj :: mn :: _ => some (mj, mn)
  | _ => none

/-- Python `int(s)`: an optional sign followed by at least one decimal
digit (whitespace/underscore tolerance of CPython is not exercised by this
module's data). -/
def digitsVal : List Char → Nat → Option Nat
  | [], acc => some acc
  | c :: cs, acc =>
    if c.isDigit then digitsVal cs (acc * 10 + (c.toNat - 48)) else none

/-- Digit-run parser used by `parseIntStr`; empty input is a parse error. -/
def digitsToNat : List Char → Option Nat
  | [] => none
  | l => digitsVal l 0

/-- Python `int(s)` on a string, `none` for `ValueError`. -/
def parseIntStr (s : String) : Option Int :=
  match s.data with
  | '-' :: rest => (digitsToNat rest).map (fun n => -(n : Int))
  | '+' :: rest => (digitsToNat rest).map (fun n => (n : Int))
  | l => (digitsToNat l).map (fun n => (n : Int))

/-- `value_extractor` from metadata_factory.py.  Returns `none` exactly
where the Python function falls through and implicitly returns `None`
(inputs that are neither `str`, `Sequence` nor `dict`: the `False`
sentinel for a missing key, and Python `None`).  A one-entry mapping is
unwrapped recursively; the two-entry `@IgnoreIfNoMatchingField`/`#text`
mapping yields its text payload; any other mapping is returned
unchanged. -/
def value_extractor : Node → Option Node
  | .str s => some (.str s)
  | .list xs => some (.list xs)
  | .bool _ => none
  | .null => none
  | .dict [(_, v)] => value_extractor v
  | .dict xs =>
    if xs.map Prod.fst = ["@IgnoreIfNoMatchingField", "#text"]
        ∨ xs.map Prod.fst = ["#text", "@IgnoreIfNoMatchingField"] then
      alookup "#text" xs
    else
      some (.dict xs)

/-- The collection loop of `match_version`: walk the mapping in iteration
order, keep the values of keys on which the anchored pattern
`v<major>.<minor>` matches, returning only the first one when
`stop_at_first` is set. -/
def mv_collect (pattern : List Char) (stop_at_first : Bool) :
    List (String × Node) → List Node
  | [] => []
  | (key, value) :: rest =>
    if startsChars pattern key.data then
      if stop_at_first then [value]
      else value :: mv_collect pattern stop_at_first rest
    else mv_collect pattern stop_at_first rest

/-- `match_version` from metadata_factory.py.  `none` models the
`ValueError` raised when the target version has no dot; otherwise
`(found, values)` exactly as the Python function returns it.  The regex
`rf"v{major}\.{minor}"` applied through `re.match` is an anchored literal
match for the metacharacter-free version components this module is given,
embedded as a starts-with test. -/
def match_version (input : List (String × Node)) (target_version : String)
    (stop_at_first : Bool) : Option (Bool × Option (List Node)) :=
  match splitTarget target_version with
  | none => none
  | some (mj, mn) =>
    let results := mv_collect ("v" ++ mj ++ "." ++ mn).data stop_at_first input
    if results.isEmpty then some (false, none) else some (true, some results)

/-- Python truthiness of the values `value_extractor` can hand back and of
the raw nodes the entry point tests (`if not mod_data`). -/
def nodeTruthy : Node → Bool
  | .str s => !s.data.isEmpty
  | .list xs => !xs.isEmpty
  | .dict xs => !xs.isEmpty
  | .bool b => b
  | .null => false

/-- Python truthiness of an extractor result (`None` is falsy). -/
def optTruthy : Option Node → Bool
  | none => false
  | some n => nodeTruthy n

/-- Python `set(xs)` on a node list, kept in first-occurrence order so the
model stays deterministic; only membership and cardinality of the result
are relied on by the code. -/
def dedupNodes (xs : List Node) : List Node :=
  xs.foldl (fun acc n => if acc.any (fun m => Node.beq m n) then acc else acc ++ [n]) []

/-- Modelled from the spec: `CaseInsensitiveStr` from
app/models/metadata/metadata_structure.py (not under src/).  The
repository's own tests (test_case_insensitive_str) pin the behaviour:
construction case-folds the string, `str(CaseInsensitiveStr("TEST")) ==
"test"`, and comparisons are made on the folded form. -/
def CaseInsensitiveStr (s : String) : String :=
  lowerStr s

/-- Modelled from the spec: `CaseInsensitiveSet` from
app/models/metadata/metadata_structure.py (not under src/).  Per the spec
(§3) and the repository's tests: an unordered collection deduplicated on
the case-folded form, iterating the folded elements; modelled as the
first-seen-order list of folded members, which determines membership,
cardinality and iteration content. -/
def CaseInsensitiveSet (xs : List String) : List String :=
  xs.foldl (fun acc s => if lowerStr s ∈ acc then acc else acc ++ [lowerStr s]) []

/-- The variant tag of a mod record.  Modelled from the spec (§3, §9): the
source mutates the object's class in place (`RuledMod`, `LudeonMod`); the
spec directs modelling this as a tagged variant whose upgrade preserves
all previously set fields. -/
inductive ModVariant where
  | base
  | ruled
  | ludeon
deriving DecidableEq, BEq

/-- Modelled from the spec: `DependencyMod` from metadata_structure.py
(not under src/): identifier, optional display name, optional workshop
URL; absent fields stay at their empty defaults (§4.6: a dependency with
no identifier is constructible-but-degenerate). -/
structure DependencyMod where
  package_id : String := ""
  name : String := ""
  workshop_url : String := ""
deriving DecidableEq

/-- Modelled from the spec: `BaseRules` from metadata_structure.py (not
under src/): dependencies keyed by case-folded identifier (unique keys,
insertion order), and three case-insensitive identifier sets (§3
RuleSet). -/
structure BaseRules where
  dependencies : List (String × DependencyMod) := []
  load_before : List String := []
  load_after : List String := []
  incompatible_with : List String := []
deriving DecidableEq

/-- Modelled from the spec: the mod record (`ListedMod` / `RuledMod` /
`LudeonMod` from metadata_structure.py, not under src/), flattened into
one structure with a variant tag per §3/§9.  Field defaults follow the
spec: a record starts valid, authors empty, identifier/name/description
empty.  `authors` and `supported_versions` hold raw nodes because the
Python code appends whatever values the descriptor yields. -/
structure ListedMod where
  package_id : String := ""
  name : String := ""
  description : String := ""
  authors : List Node := []
  supported_versions : List Node := []
  mod_path : String := ""
  valid : Bool := true
  variant : ModVariant := .base
  steam_app_id : Option Int := none
  mod_version : String := ""
  mod_icon_path : String := ""
  url : String := ""
  about_rules : BaseRules := {}

/-- Modelled from the spec: the external official-content table
`RIMWORLD_DLC_METADATA` from app/utils/constants.py (not under src/): a
read-only mapping from numeric content id (held as its decimal string, as
in the source) to the official content's stable package identifier,
display name and description (§6 lookup table interface), with
representative entries. -/
structure DlcInfo where
  packageid : String
  name : String
  description : String
deriving DecidableEq

/-- Modelled from the spec: representative rows of the official-content
table (see `DlcInfo`). -/
def RIMWORLD_DLC_METADATA : List (String × DlcInfo) :=
  [("294100", ⟨"ludeon.rimworld", "RimWorld", "The base game."⟩),
   ("1149640", ⟨"ludeon.rimworld.royalty", "RimWorld - Royalty", "The first expansion."⟩)]

/-- `get_dlc_packageid_appid_map` from metadata_factory.py: invert the
table into packageid → appid (the `@cache` decorator only memoizes this
pure value). -/
def get_dlc_packageid_appid_map : List (String × String) :=
  RIMWORLD_DLC_METADATA.map (fun p => (p.2.packageid, p.1))

/-- `_set_mod_invalid` from metadata_factory.py: set the record invalid
(the warning side channel is not modelled; validity is the observable). -/
def set_mod_invalid (mod : ListedMod) : ListedMod :=
  { mod with valid := false }

/-- The packageId step of `_parse_required` (lines 133-140): the
identifier must extract to a string, else the record is invalidated. -/
def pr_package_id (mod_data : Dict) (mod : ListedMod) : ListedMod :=
  match value_extractor (dget mod_data "packageId" (.bool false)) with
  | some (.str s) => { mod with package_id := CaseInsensitiveStr s }
  | _ => set_mod_invalid mod

/-- The official-content step of `_parse_required` (lines 142-179): a
table hit upgrades the record to the Ludeon variant with table-sourced
name/description; otherwise an identifier containing "ludeon." triggers
the heuristic that reads an explicit integer `steamAppId`, upgrading with
placeholder name/description on success and leaving the record unchanged
(advisory log only) on failure.  Validity is never touched here. -/
def pr_dlc (mod_data : Dict) (mod : ListedMod) : ListedMod :=
  match alookup mod.package_id get_dlc_packageid_appid_map with
  | some appid =>
    let info := (alookup appid RIMWORLD_DLC_METADATA).getD ⟨"", "", ""⟩
    { mod with variant := .ludeon, steam_app_id := some ((parseIntStr appid).getD 0),
               name := info.name, description := info.description }
  | none =>
    if containsSub mod.package_id "ludeon." then
      match value_extractor (dget mod_data "steamAppId" (.bool false)) with
      | some (.str s) =>
        match parseIntStr s with
        | some n =>
          { mod with variant := .ludeon, steam_app_id := some n,
                     description := "Unknown Ludeon mod", name := "Unknown Ludeon mod" }
        | none => mod
      | _ => mod
    else mod

/-- The name step of `_parse_required` (lines 181-191): a string name is
taken as-is (also on the Ludeon variant, overwriting the table name);
otherwise, unless the record is Ludeon, the record is invalidated, with
the already-folded identifier as display fallback when the packageId had
extracted to a string. -/
def pr_name (mod_data : Dict) (mod : ListedMod) : ListedMod :=
  match value_extractor (dget mod_data "name" (.bool false)) with
  | some (.str s) => { mod with name := s }
  | _ =>
    if mod.variant = .ludeon then mod
    else
      match value_extractor (dget mod_data "packageId" (.bool false)) with
      | some (.str _) => set_mod_invalid { mod with name := mod.package_id }
      | _ => set_mod_invalid mod

/-- The description step of `_parse_required` (lines 193-200). -/
def pr_description (mod_data : Dict) (mod : ListedMod) : ListedMod :=
  match value_extractor (dget mod_data "description" (.bool false)) with
  | some (.str s) => { mod with description := s }
  | _ =>
    if mod.variant = .ludeon then mod else set_mod_invalid mod

/-- What Python `list.extend(x)` appends for the values `value_extractor`
can produce: the characters of a string (each a one-character string),
the elements of a list, the keys of a mapping.  Sentinel nodes cannot
reach this point from `value_extractor` output (Python would raise
`TypeError`); they contribute nothing. -/
def extendNodes : Node → List Node
  | .str s => s.data.map (fun c => .str (String.mk [c]))
  | .list xs => xs
  | .dict xs => xs.map (fun kv => .str kv.1)
  | .bool _ => []
  | .null => []

/-- The authors step of `_parse_required` (lines 202-214): a string
singular `author` is appended; a truthy plural `authors` is extended
element-by-element (characters, when it is a string); the record is
invalidated only when both are falsy and the record is not Ludeon. -/
def pr_authors (mod_data : Dict) (mod : ListedMod) : ListedMod :=
  let author := value_extractor (dget mod_data "author" (.bool false))
  let authors := value_extractor (dget mod_data "authors" (.bool false))
  let mod :=
    match author with
    | some (.str s) => { mod with authors := mod.authors ++ [.str s] }
    | _ => mod
  let mod :=
    match authors with
    | some a => if nodeTruthy a then { mod with authors := mod.authors ++ extendNodes a } else mod
    | none => mod
  if !(optTruthy author || optTruthy authors) && !(mod.variant == ModVariant.ludeon) then
    set_mod_invalid mod
  else mod

/-- The supportedVersions step of `_parse_required` (lines 216-225): a
list becomes the version set, a single string becomes a singleton set,
anything else invalidates a non-Ludeon record. -/
def pr_supported_versions (mod_data : Dict) (mod : ListedMod) : ListedMod :=
  match value_extractor (dget mod_data "supportedVersions" (.bool false)) with
  | some (.list xs) => { mod with supported_versions := dedupNodes xs }
  | some (.str s) => { mod with supported_versions := [.str s] }
  | _ =>
    if mod.variant = .ludeon then mod else set_mod_invalid mod

/-- `_parse_required` from metadata_factory.py: the six required-field
steps in source order. -/
def parse_required (mod_data : Dict) (mod : ListedMod) : ListedMod :=
  pr_supported_versions mod_data
    (pr_authors mod_data
      (pr_description mod_data
        (pr_name mod_data
          (pr_dlc mod_data
            (pr_package_id mod_data mod)))))

/-- `create_mod_dependency` from metadata_factory.py (lines 339-359): the
raw entries (no `value_extractor`) are copied when they are strings; the
identifier is case-folded by `CaseInsensitiveStr`. -/
def create_mod_dependency (input_dict : Dict) : DependencyMod :=
  let mod : DependencyMod := {}
  let mod :=
    match dget input_dict "packageId" (.bool false) with
    | .str s => { mod with package_id := CaseInsensitiveStr s }
    | _ => mod
  let mod :=
    match dget input_dict "displayName" (.bool false) with
    | .str s => { mod with name := s }
    | _ => mod
  match dget input_dict "workshopUrl" (.bool false) with
  | .str s => { mod with workshop_url := s }
  | _ => mod

/-- Python `x if isinstance(x, list) else [x]` applied to an extractor
result, with `None` wrapped as the one-element list holding it, exactly
as Python does. -/
def wrapList (v : Option Node) : List Node :=
  match v with
  | some (.list xs) => xs
  | some n => [n]
  | none => [.null]

/-- The dependency-merging loop of `create_base_rules` (lines 275-288):
structured-map entries become `DependencyMod`s keyed by case-folded
identifier, first occurrence wins; duplicate and non-map entries are
dropped with a diagnostic (returned here as the log list). -/
def depStep (acc : List (String × DependencyMod) × List String) (dep : Node) :
    List (String × DependencyMod) × List String :=
  match dep with
  | .dict xs =>
    let dm := create_mod_dependency xs
    match alookup dm.package_id acc.1 with
    | some _ =>
      (acc.1, acc.2 ++ ["Duplicate dependency found: " ++ dm.package_id ++ ". Skipping."])
    | none =>
      (acc.1 ++ [(dm.package_id, dm)], acc.2)
  | _ =>
    (acc.1, acc.2 ++ ["Skipping invalid dependency. This mod may be invalid."])

/-- The state threaded by the loop of `create_base_rules` over the merged
dependency entries: the keyed dependencies built so far and the warnings
emitted for dropped entries. -/
def depsFold (entries : List Node) : List (String × DependencyMod) × List String :=
  entries.foldl depStep ([], [])

/-- Case folding of the identifier nodes poured into a
`CaseInsensitiveSet`; a non-string element is an `AttributeError` in
Python (`.lower()` on a non-string), modelled as an error value. -/
def nodesAsStrings : List Node → Except String (List String)
  | [] => .ok []
  | .str s :: rest => (nodesAsStrings rest).map (fun t => s :: t)
  | _ :: _ => .error "AttributeError: lower"

/-- The `load_operations` inner function of `create_base_rules` (lines
290-306): version-agnostic entries, then all version-matched entries when
the ByVersion extraction is still a mapping, then the forced entries,
folded into a `CaseInsensitiveSet`.  Errors: `ValueError` when
`match_version` is reached with a dot-less target, `AttributeError` when
a non-string reaches the set constructor. -/
def load_operations (mod_data : Dict) (key force_key : String)
    (target_version : String) : Except String (List String) :=
  let load := wrapList (value_extractor (dget mod_data key (.list [])))
  let step2 : Except String (List Node) :=
    match value_extractor (dget mod_data (key ++ "ByVersion") (.dict [])) with
    | some (.dict xs) =>
      match match_version xs target_version false with
      | none => .error "ValueError: not enough values to unpack"
      | some (_, load_versioned) =>
        match load_versioned with
        | some l => .ok (load ++ l)
        | none => .ok load
    | _ => .ok load
  match step2 with
  | .error e => .error e
  | .ok load =>
    let forceLoad := wrapList (value_extractor (dget mod_data force_key (.list [])))
    match nodesAsStrings (load ++ forceLoad) with
    | .error e => .error e
    | .ok ss => .ok (CaseInsensitiveSet ss)

/-- The incompatibleWith part of `create_base_rules` (lines 319-334):
like `load_operations` but with no forced variant. -/
def incompatible_operations (mod_data : Dict) (target_version : String) :
    Except String (List String) :=
  let iw := wrapList (value_extractor (dget mod_data "incompatibleWith" (.list [])))
  let step2 : Except String (List Node) :=
    match value_extractor (dget mod_data "incompatibleWithByVersion" (.dict [])) with
    | some (.dict xs) =>
      match match_version xs target_version false with
      | none => .error "ValueError: not enough values to unpack"
      | some (_, incompatibles) =>
        match incompatibles with
        | some l => .ok (iw ++ l)
        | none => .ok iw
    | _ => .ok iw
  match step2 with
  | .error e => .error e
  | .ok iw =>
    match nodesAsStrings iw with
    | .error e => .error e
    | .ok ss => .ok (CaseInsensitiveSet ss)

/-- `create_base_rules` from metadata_factory.py (lines 256-336),
returning the assembled rules together with the dependency-drop
diagnostics.  Errors model the exceptions that would escape the Python
function. -/
def create_base_rules (mod_data : Dict) (target_version : String) :
    Except String (BaseRules × List String) :=
  let md := wrapList (value_extractor (dget mod_data "modDependencies" (.list [])))
  let mdAll : Except String (List Node) :=
    match value_extractor (dget mod_data "modDependenciesByVersion" (.dict [])) with
    | some (.dict xs) =>
      match match_version xs target_version false with
      | none => .error "ValueError: not enough values to unpack"
      | some (_, dependencies) =>
        match dependencies with
        | some l => .ok (md ++ l)
        | none => .ok md
    | _ => .ok md
  match mdAll with
  | .error e => .error e
  | .ok entries =>
    let (deps, log) := depsFold entries
    match load_operations mod_data "loadBefore" "forceLoadBefore" target_version with
    | .error e => .error e
    | .ok lb =>
      match load_operations mod_data "loadAfter" "forceLoadAfter" target_version with
      | .error e => .error e
      | .ok la =>
        match incompatible_operations mod_data target_version with
        | .error e => .error e
        | .ok iw =>
          .ok ({ dependencies := deps, load_before := lb,
                 load_after := la, incompatible_with := iw }, log)

/-- `_parse_optional` from metadata_factory.py (lines 230-253): fills the
optional fields, attaches the rule set, and then unconditionally raises
`NotImplementedError` — the mutated record never reaches the caller, so
the result is always an error (the `ValueError` from a malformed target
version inside `create_base_rules` takes precedence, as in the source). -/
def parse_optional (mod_data : Dict) (mod : ListedMod) (target_version : String) :
    Except String ListedMod :=
  let mod :=
    match value_extractor (dget mod_data "modVersion" (.bool false)) with
    | some (.str s) => if nodeTruthy (.str s) then { mod with mod_version := s } else mod
    | _ => mod
  let mod :=
    match value_extractor (dget mod_data "modIconPath" (.bool false)) with
    | some (.str s) => if nodeTruthy (.str s) then { mod with mod_icon_path := s } else mod
    | _ => mod
  let mod :=
    match value_extractor (dget mod_data "url" (.bool false)) with
    | some (.str s) => if nodeTruthy (.str s) then { mod with url := s } else mod
    | _ => mod
  match create_base_rules mod_data target_version with
  | .error e => .error e
  | .ok (rules, _) =>
    let _unreturned := { mod with about_rules := rules }
    .error "NotImplementedError"

/-- `create_listed_mod` from metadata_factory.py (lines 92-109): required
fields into a fresh Ruled record, the class coercion back to the Ruled
variant (keeping all fields, as the `__dict__` copy does), then the
optional pass — whose unconditional raise makes the tuple return
unreachable. -/
def create_listed_mod (mod_data : Dict) (target_version : String) :
    Except String (Bool × ListedMod) :=
  let mod := parse_required mod_data { variant := ModVariant.ruled }
  let mod := if mod.variant = ModVariant.ruled then mod else { mod with variant := ModVariant.ruled }
  match parse_optional mod_data mod target_version with
  | .error e => .error e
  | .ok m => .ok (m.valid, m)

/-- `create_listed_mod_from_xml` from metadata_factory.py (lines 362-381).
The out-of-scope XML deserializer is an external collaborator; its result
for the given path is passed in: `.error` for any deserialization
failure.  The `["ModMetaData"]` `KeyError` is caught by the same `try`;
the falsy-root check follows; anything raised later (the
`NotImplementedError`, or an `AttributeError` when the root entry is not
a mapping) escapes, as it is outside the `try`. -/
def create_listed_mod_from_xml (parsed : Except String Dict)
    (mod_xml_path : String) (target_version : String) :
    Except String (Bool × ListedMod) :=
  match parsed with
  | .error _ => .ok (false, { valid := false })
  | .ok root =>
    match alookup "ModMetaData" root with
    | none => .ok (false, { valid := false })
    | some mod_data =>
      if nodeTruthy mod_data = false then .ok (false, { valid := false })
      else
        match mod_data with
        | .dict d =>
          match create_listed_mod d target_version with
          | .error e => .error e
          | .ok (valid, mod) => .ok (valid, { mod with mod_path := mod_xml_path })
        | _ => .error "AttributeError: get"

/-- Left-biased combination of options (Python's first-hit lookup
composition), used to state lookup lemmas. -/
def oor {α : Type} : Option α → Option α → Option α
  | some v, _ => some v
  | none, o => o

theorem oor_none {α : Type} (o : Option α) : oor o none = o := by
  cases o <;> rfl

theorem oor_assoc_absorb {α : Type} (a : Option α) (v : α) (c : Option α) :
    oor (oor a (some v)) c = oor a (some v) := by
  cases a <;> rfl

theorem oor_none_middle {α : Type} (a c : Option α) :
    oor (oor a none) c = oor a c := by
  cases a <;> rfl

theorem alookup_append {β : Type} (k : String) (l₁ l₂ : List (String × β)) :
    alookup k (l₁ ++ l₂) = oor (alookup k l₁) (alookup k l₂) := by
  induction l₁ with
  | nil => rfl
  | cons p rest ih =>
    obtain ⟨a, v⟩ := p
    by_cases h : a = k <;> simp [alookup, h, ih, oor]

theorem alookup_eq_none {β : Type} (k : String) (l : List (String × β)) :
    alookup k l = none ↔ k ∉ l.map Prod.fst := by
  induction l with
  | nil => simp [alookup]
  | cons p rest ih =>
    obtain ⟨a, v⟩ := p
    by_cases h : a = k
    · subst h
      simp [alookup]
    · rw [List.map_cons, List.mem_cons]
      simp only [alookup, h, if_false, ih]
      constructor
      · intro hnot hor
        rcases hor with h1 | h2
        · exact h h1.symm
        · exact hnot h2
      · intro hnot hm
        exact hnot (Or.inr hm)

/-- The first structured-map entry of the list whose dependency converts
to the given case-folded identifier: the specification's "first
occurrence wins" reading of the dependency merge. -/
def firstDep (k : String) : List Node → Option DependencyMod
  | [] => none
  | .dict xs :: rest =>
    let dm := create_mod_dependency xs
    if dm.package_id = k then some dm else firstDep k rest
  | _ :: rest => firstDep k rest

theorem depsFold_lookup_aux (k : String) (l : List Node) :
    ∀ acc, alookup k (List.foldl depStep acc l).1 = oor (alookup k acc.1) (firstDep k l) := by
  induction l with
  | nil => intro acc; simp [firstDep, oor_none]
  | cons n rest ih =>
    intro acc
    cases n with
    | dict xs =>
      simp only [List.foldl_cons, depStep, firstDep]
      cases hdup : alookup (create_mod_dependency xs).package_id acc.1 with
      | some w =>
        rw [ih]
        by_cases hk : (create_mod_dependency xs).package_id = k
        · rw [if_pos hk]
          rw [hk] at hdup
          rw [hdup]
          rfl
        · rw [if_neg hk]
      | none =>
        rw [ih]
        simp only [alookup_append]
        by_cases hk : (create_mod_dependency xs).package_id = k
        · rw [if_pos hk]
          have h1 : alookup k [((create_mod_dependency xs).package_id, create_mod_dependency xs)]
              = some (create_mod_dependency xs) := by
            simp [alookup, hk]
          rw [h1, oor_assoc_absorb]
        · rw [if_neg hk]
          have h1 : alookup k [((create_mod_dependency xs).package_id, create_mod_dependency xs)]
              = none := by
            simp [alookup, hk]
          rw [h1, oor_none_middle]
    | str s => simp only [List.foldl_cons, depStep, firstDep, ih]
    | list xs => simp only [List.foldl_cons, depStep, firstDep, ih]
    | bool b => simp only [List.foldl_cons, depStep, firstDep, ih]
    | null => simp only [List.foldl_cons, depStep, firstDep, ih]

theorem depsFold_lookup (k : String) (l : List Node) :
    alookup k (depsFold l).1 = firstDep k l := by
  rw [depsFold, depsFold_lookup_aux]
  rfl

theorem depsFold_nodup_aux (l : List Node) :
    ∀ acc : List (String × DependencyMod) × List String,
      (acc.1.map Prod.fst).Nodup → ((List.foldl depStep acc l).1.map Prod.fst).Nodup := by
  induction l with
  | nil => intro acc h; simpa using h
  | cons n rest ih =>
    intro acc h
    cases n with
    | dict xs =>
      simp only [List.foldl_cons, depStep]
      cases hdup : alookup (create_mod_dependency xs).package_id acc.1 with
      | some w => exact ih _ h
      | none =>
        refine ih _ ?_
        have hnotmem := (alookup_eq_none _ _).mp hdup
        simp [List.nodup_append, h, hnotmem]
    | str s => simp only [List.foldl_cons, depStep]; exact ih _ h
    | list xs => simp only [List.foldl_cons, depStep]; exact ih _ h
    | bool b => simp only [List.foldl_cons, depStep]; exact ih _ h
    | null => simp only [List.foldl_cons, depStep]; exact ih _ h

theorem depsFold_nodup (l : List Node) : ((depsFold l).1.map Prod.fst).Nodup := by
  exact depsFold_nodup_aux l ([], []) (by simp)

theorem mv_collect_eq (pattern : List Char) (stop : Bool) (l : List (String × Node)) :
    mv_collect pattern stop l
      = (if stop then List.take 1 else fun x => x)
          ((l.filter (fun kv => startsChars pattern kv.1.data)).map Prod.snd) := by
  induction l with
  | nil => cases stop <;> simp [mv_collect]
  | cons kv rest ih =>
    obtain ⟨key, value⟩ := kv
    by_cases h : startsChars pattern key.data
    · cases stop with
      | true => simp [mv_collect, h, List.filter_cons]
      | false => simp [mv_collect, h, List.filter_cons, ih]
    · cases stop with
      | true => simp [mv_collect, h, List.filter_cons, ih]
      | false => simp [mv_collect, h, List.filter_cons, ih]

/-- A record transformer treats the validity flag as a write-only
accumulator: its effect on every other field ignores the incoming flag,
and the flag it produces is the incoming flag AND-ed with the step's own
verdict.  This is the statement that the required-field steps are
independent of each other's failures. -/
def ValidIndep (f : ListedMod → ListedMod) : Prop :=
  ∀ (m : ListedMod) (b : Bool), f { m with valid := b }
    = { f { m with valid := true } with valid := b && (f { m with valid := true }).valid }

theorem listedMod_eta (m : ListedMod) : { m with valid := m.valid } = m := rfl

theorem validIndep_comp {f g : ListedMod → ListedMod}
    (hf : ValidIndep f) (hg : ValidIndep g) : ValidIndep (fun m => g (f m)) := by
  intro m b
  have h1 := hf m b
  have hFeta : f { m with valid := true }
      = { f { m with valid := true } with valid := (f { m with valid := true }).valid } :=
    (listedMod_eta _).symm
  have hF := hg (f { m with valid := true }) (f { m with valid := true }).valid
  rw [← hFeta] at hF
  simp only [h1]
  have h2 := hg (f { m with valid := true }) (b && (f { m with valid := true }).valid)
  rw [h2, hF]
  simp [Bool.and_assoc]

theorem pr_package_id_validIndep (d : Dict) : ValidIndep (pr_package_id d) := by
  intro m b
  unfold pr_package_id set_mod_invalid
  dsimp only
  repeat' split
  all_goals simp_all

theorem pr_dlc_validIndep (d : Dict) : ValidIndep (pr_dlc d) := by
  intro m b
  unfold pr_dlc
  dsimp only
  repeat' split
  all_goals simp_all

theorem pr_name_validIndep (d : Dict) : ValidIndep (pr_name d) := by
  intro m b
  unfold pr_name set_mod_invalid
  dsimp only
  repeat' split
  all_goals simp_all

theorem pr_description_validIndep (d : Dict) : ValidIndep (pr_description d) := by
  intro m b
  unfold pr_description set_mod_invalid
  dsimp only
  repeat' split
  all_goals simp_all

theorem pr_authors_validIndep (d : Dict) : ValidIndep (pr_authors d) := by
  intro m b
  unfold pr_authors set_mod_invalid
  dsimp only
  repeat' split
  all_goals simp_all

theorem pr_supported_versions_validIndep (d : Dict) : ValidIndep (pr_supported_versions d) := by
  intro m b
  unfold pr_supported_versions set_mod_invalid
  dsimp only
  repeat' split
  all_goals simp_all

theorem parse_required_validIndep (d : Dict) : ValidIndep (fun m => parse_required d m) := by
  have h2 := validIndep_comp (pr_package_id_validIndep d) (pr_dlc_validIndep d)
  have h3 := validIndep_comp h2 (pr_name_validIndep d)
  have h4 := validIndep_comp h3 (pr_description_validIndep d)
  have h5 := validIndep_comp h4 (pr_authors_validIndep d)
  have h6 := validIndep_comp h5 (pr_supported_versions_validIndep d)
  show ValidIndep (fun m =>
    pr_supported_versions d (pr_authors d (pr_description d (pr_name d (pr_dlc d (pr_package_id d m))))))
  exact h6

theorem parse_required_monotone (d : Dict) (m : ListedMod)
    (h : (parse_required d m).valid = true) : m.valid = true := by
  have hv : parse_required d { m with valid := m.valid }
      = { parse_required d { m with valid := true } with
          valid := m.valid && (parse_required d { m with valid := true }).valid } :=
    parse_required_validIndep d m m.valid
  rw [listedMod_eta] at hv
  rw [hv] at h
  simp at h
  exact h.1

/-- A descriptor with a valid identifier, name, description, one author
and one supported version: the specification's canonical fully-valid
input. -/
def completeDescriptor : Dict :=
  [("packageId", .str "my.mod"), ("name", .str "My Mod"),
   ("description", .str "A mod"), ("author", .str "Alice"),
   ("supportedVersions", .list [.str "1.5"])]

/-- C1: the claim says `create_listed_mod` returns normally with a valid
record for every complete descriptor and that no failure escalates past
`create_listed_mod_from_xml`.  The required-field pass does mark this
record valid, but `_parse_optional` unconditionally raises
`NotImplementedError`, so `create_listed_mod` never returns normally and
the exception escapes the entry point, whose try-block covers only the
deserialization. -/
theorem c1_complete_descriptor_raises_not_implemented :
    (parse_required completeDescriptor { variant := ModVariant.ruled }).valid = true
    ∧ create_listed_mod completeDescriptor "1.5" = .error "NotImplementedError"
    ∧ create_listed_mod_from_xml (.ok [("ModMetaData", .dict completeDescriptor)])
        "About.xml" "1.5" = .error "NotImplementedError" :=
  ⟨rfl, rfl, rfl⟩

/-- The spec's round-trip input for the load-before merge. -/
def loadBeforeDescriptor : Dict :=
  [("loadBefore", .list [.str "A"]),
   ("loadBeforeByVersion", .dict [("v1.5", .list [.str "B"])]),
   ("forceLoadBefore", .list [.str "C"])]

/-- C2 counterexample: against target "1.5" the produced load_before set
is {"a", "c"} — the version-conditioned "B" is missing, because
`value_extractor` unwraps the single-key `loadBeforeByVersion` mapping
into the bare list ["B"], which then fails the mapping check guarding
`match_version`. -/
theorem c2_counterexample_version_entry_dropped :
    load_operations loadBeforeDescriptor "loadBefore" "forceLoadBefore" "1.5"
      = .ok ["a", "c"]
    ∧ "b" ∉ (["a", "c"] : List String) :=
  ⟨rfl, by decide⟩

/-- C2 amended: building the rule set from loadBefore ["A"],
loadBeforeByVersion {"v1.5": ["B"]}, forceLoadBefore ["C"] against
target "1.5" yields load_before equal (case-folded) to {"a", "c"}:
unconditioned entries first, then forced entries; the version-matched
entries are dropped because the one-key ByVersion mapping is unwrapped
to its bare value list by the value extractor and never reaches the
version matcher. -/
theorem c2_amended_load_before_merge :
    load_operations loadBeforeDescriptor "loadBefore" "forceLoadBefore" "1.5"
      = .ok (CaseInsensitiveSet ["A", "C"])
    ∧ value_extractor (.dict [("v1.5", .list [.str "B"])]) = some (.list [.str "B"]) :=
  ⟨rfl, rfl⟩

/-- An official-content descriptor that also carries its own name. -/
def officialNamedDescriptor : Dict :=
  [("packageId", .str "ludeon.rimworld"), ("name", .str "Custom Name")]

/-- C3 counterexample: when the descriptor supplies its own name, the
name step overwrites the table-sourced name even on the official-content
variant — the assignment of a string name is unconditional, only the
invalidation is guarded by the variant — so the resulting record's name
is not the table's. -/
theorem c3_counterexample_descriptor_name_overrides_table :
    (parse_required officialNamedDescriptor { variant := ModVariant.ruled }).variant
      = ModVariant.ludeon
    ∧ (parse_required officialNamedDescriptor { variant := ModVariant.ruled }).name
      = "Custom Name"
    ∧ alookup "294100" RIMWORLD_DLC_METADATA
      = some ⟨"ludeon.rimworld", "RimWorld", "The base game."⟩
    ∧ ("Custom Name" : String) ≠ "RimWorld" :=
  ⟨rfl, rfl, rfl, by decide⟩

/-- C3 amended: every identifier matching the official-content table
upgrades the record to the official-content variant with table-sourced
name/description and numeric content id, and the record is valid even
with author, description and supported versions all missing from the
descriptor; the table name/description stand only when the descriptor
does not supply its own string name/description, which override them. -/
theorem c3_amended_official_upgrade :
    ∀ p ∈ get_dlc_packageid_appid_map,
      ∃ info, alookup p.2 RIMWORLD_DLC_METADATA = some info
        ∧ (parse_required [("packageId", .str p.1)] { variant := ModVariant.ruled }).variant
          = ModVariant.ludeon
        ∧ (parse_required [("packageId", .str p.1)] { variant := ModVariant.ruled }).name
          = info.name
        ∧ (parse_required [("packageId", .str p.1)] { variant := ModVariant.ruled }).description
          = info.description
        ∧ (parse_required [("packageId", .str p.1)] { variant := ModVariant.ruled }).valid
          = true
        ∧ (parse_required [("packageId", .str p.1)] { variant := ModVariant.ruled }).steam_app_id
          = some ((parseIntStr p.2).getD 0) := by
  intro p hp
  rw [show get_dlc_packageid_appid_map
    = [("ludeon.rimworld", "294100"), ("ludeon.rimworld.royalty", "1149640")] from rfl] at hp
  simp only [List.mem_cons, List.not_mem_nil, or_false] at hp
  rcases hp with rfl | rfl
  · exact ⟨⟨"ludeon.rimworld", "RimWorld", "The base game."⟩, rfl, rfl, rfl, rfl, rfl, rfl⟩
  · exact ⟨⟨"ludeon.rimworld.royalty", "RimWorld - Royalty", "The first expansion."⟩,
      rfl, rfl, rfl, rfl, rfl, rfl⟩

theorem c3_amended_official_upgrade_witness :
    ∃ info, alookup "294100" RIMWORLD_DLC_METADATA = some info
      ∧ (parse_required [("packageId", .str "ludeon.rimworld")]
          { variant := ModVariant.ruled }).variant = ModVariant.ludeon
      ∧ (parse_required [("packageId", .str "ludeon.rimworld")]
          { variant := ModVariant.ruled }).name = info.name
      ∧ (parse_required [("packageId", .str "ludeon.rimworld")]
          { variant := ModVariant.ruled }).description = info.description
      ∧ (parse_required [("packageId", .str "ludeon.rimworld")]
          { variant := ModVariant.ruled }).valid = true
      ∧ (parse_required [("packageId", .str "ludeon.rimworld")]
          { variant := ModVariant.ruled }).steam_app_id
        = some ((parseIntStr "294100").getD 0) :=
  c3_amended_official_upgrade ("ludeon.rimworld", "294100") (by decide)

/-- The descriptor of the C4 scenario: no name, identifier "Foo.Bar". -/
def fooBarDescriptor : Dict := [("packageId", .str "Foo.Bar")]

/-- C4 counterexample: with "name" missing and identifier "Foo.Bar" the
record is indeed invalid, but its fallback name is the case-folded
identifier "foo.bar", not the original casing "Foo.Bar": the fallback
copies `mod.package_id`, which `CaseInsensitiveStr` already folded, as
pinned by test_case_insensitive_str. -/
theorem c4_counterexample_name_not_case_preserved :
    (parse_required fooBarDescriptor { variant := ModVariant.ruled }).name = "foo.bar"
    ∧ (parse_required fooBarDescriptor { variant := ModVariant.ruled }).valid = false
    ∧ ("foo.bar" : String) ≠ "Foo.Bar" :=
  ⟨rfl, rfl, by decide⟩

/-- C4 amended: a descriptor missing "name" with valid identifier
"Foo.Bar" produces a record whose name is the case-folded identifier
"foo.bar" and whose validity flag is false. -/
theorem c4_amended_fallback_name_case_folded :
    (parse_required fooBarDescriptor { variant := ModVariant.ruled }).name
      = CaseInsensitiveStr "Foo.Bar"
    ∧ (parse_required fooBarDescriptor { variant := ModVariant.ruled }).valid = false :=
  ⟨rfl, rfl⟩

/-- C5: record validity is monotone and the required-field steps are
independent: a fresh record starts valid; the final flag can be true
only if the incoming flag was true, so no step ever turns the flag back
to true; and `parse_required` is `ValidIndep` — every field other than
the flag is computed without looking at the incoming flag, so one step's
failure (whose only record effect is the flag, plus its own field's
fallback) cannot block any later step from filling or invalidating its
field. -/
theorem c5_validity_monotone_and_steps_independent :
    (({} : ListedMod).valid = true)
    ∧ (∀ (d : Dict) (m : ListedMod), (parse_required d m).valid = true → m.valid = true)
    ∧ (∀ d : Dict, ValidIndep (fun m => parse_required d m)) :=
  ⟨rfl, parse_required_monotone, parse_required_validIndep⟩

theorem c5_witness : ({} : ListedMod).valid = true :=
  c5_validity_monotone_and_steps_independent.2.1 completeDescriptor {} rfl

/-- Duplicate case-variant dependencies plus a malformed entry. -/
def dupDepsDescriptor : Dict :=
  [("modDependencies", .list
     [.dict [("packageId", .str "Foo"), ("displayName", .str "First")],
      .dict [("packageId", .str "foo"), ("displayName", .str "Second")],
      .str "bad"])]

/-- Required fields together with the duplicate dependencies, to observe
record validity. -/
def dupDepsFullDescriptor : Dict := completeDescriptor ++ dupDepsDescriptor

/-- C6: "Foo" and "foo" collapse to one surviving dependency — the first
occurrence, keyed by the case-folded identifier — with the duplicate and
the non-map entry each dropped and logged; in general the dependency map
holds, for each case-folded key, exactly the first structured-map entry
converting to it (no duplicate keys survive); and the drops leave the
record's validity flag true. -/
theorem c6_duplicate_dependency_first_wins :
    (create_base_rules dupDepsDescriptor "1.5"
      = .ok ({ dependencies := [("foo", { package_id := "foo", name := "First" })] },
             ["Duplicate dependency found: foo. Skipping.",
              "Skipping invalid dependency. This mod may be invalid."]))
    ∧ (∀ (entries : List Node) (k : String),
        alookup k (depsFold entries).1 = firstDep k entries)
    ∧ (∀ entries : List Node, ((depsFold entries).1.map Prod.fst).Nodup)
    ∧ (parse_required dupDepsFullDescriptor { variant := ModVariant.ruled }).valid = true :=
  ⟨rfl, fun entries k => depsFold_lookup k entries, depsFold_nodup, rfl⟩

/-- C7: `match_version` semantics.  With a well-formed target it selects
exactly the values whose keys start with "v<major>.<minor>", where
major/minor are the first two dot-separated components of the target, in
mapping iteration order, truncated to the first match under
`stop_at_first`; no match gives (false, none).  Concretely: "v1.5"
matches target "1.5.2" (extra components ignored), "v1.4" does not match
"1.5", "v1.5-extra" matches "1.5" (anchored, not full match); and a
dot-less target is the modelled fail-fast `ValueError`. -/
theorem c7_match_version_semantics :
    (∀ (input : List (String × Node)) (tv : String) (stop : Bool),
      match_version input tv stop =
        match splitTarget tv with
        | none => none
        | some (mj, mn) =>
          let ms := (input.filter
            (fun kv => startsChars ("v" ++ mj ++ "." ++ mn).data kv.1.data)).map Prod.snd
          if ms.isEmpty then some (false, none)
          else some (true, some (if stop then ms.take 1 else ms)))
    ∧ match_version [("v1.5", .null)] "1.5.2" false = some (true, some [.null])
    ∧ match_version [("v1.4", .null)] "1.5" false = some (false, none)
    ∧ match_version [("v1.5-extra", .null)] "1.5" false = some (true, some [.null])
    ∧ (∀ (input : List (String × Node)) (stop : Bool),
        match_version input "15" stop = none) := by
  refine ⟨?_, rfl, rfl, rfl, fun input stop => rfl⟩
  intro input tv stop
  unfold match_version
  cases splitTarget tv with
  | none => rfl
  | some p =>
    obtain ⟨mj, mn⟩ := p
    simp only [mv_collect_eq]
    cases stop with
    | false => simp
    | true =>
      cases hms : (input.filter
          (fun kv => startsChars ("v" ++ mj ++ "." ++ mn).data kv.1.data)).map Prod.snd with
      | nil => simp [hms]
      | cons a rest => simp [hms]

/-- C8: every deserialization failure, missing "ModMetaData" root entry,
and falsy root entry makes the entry point return (false, an empty
invalid Base record) instead of raising; the function is pure in its
single descriptor, so other descriptors are unaffected. -/
theorem c8_entry_point_failure_paths :
    (∀ (e path tv : String),
      create_listed_mod_from_xml (.error e) path tv = .ok (false, { valid := false }))
    ∧ (∀ (root : Dict) (path tv : String), alookup "ModMetaData" root = none →
      create_listed_mod_from_xml (.ok root) path tv = .ok (false, { valid := false }))
    ∧ (∀ (root : Dict) (md : Node) (path tv : String),
      alookup "ModMetaData" root = some md → nodeTruthy md = false →
      create_listed_mod_from_xml (.ok root) path tv = .ok (false, { valid := false })) := by
  refine ⟨fun e path tv => rfl, ?_, ?_⟩
  · intro root path tv h
    simp [create_listed_mod_from_xml, h]
  · intro root md path tv h ht
    simp [create_listed_mod_from_xml, h, ht]

theorem c8_witness :
    create_listed_mod_from_xml (.ok [("ModMetaData", .dict [])]) "About.xml" "1.5"
      = .ok (false, { valid := false }) :=
  c8_entry_point_failure_paths.2.2 [("ModMetaData", .dict [])] (.dict [])
    "About.xml" "1.5" rfl rfl

/-- C9: `value_extractor` is total over the node space and yields the
"nothing" value on every input that is not a string, sequence or mapping
— in particular the boolean `False` sentinel callers pass for an absent
key, and Python `None`; consequently the required-field string checks on
a missing key take their invalid branch. -/
theorem c9_extractor_sentinels_give_none :
    (∀ b : Bool, value_extractor (.bool b) = none)
    ∧ value_extractor .null = none
    ∧ (∀ (d : Dict) (m : ListedMod), alookup "packageId" d = none →
        pr_package_id d m = set_mod_invalid m)
    ∧ (∀ (d : Dict) (m : ListedMod), alookup "description" d = none →
        m.variant ≠ ModVariant.ludeon → pr_description d m = set_mod_invalid m) := by
  refine ⟨fun b => rfl, rfl, ?_, ?_⟩
  · intro d m h
    unfold pr_package_id dget
    rw [h]
    rfl
  · intro d m h hv
    unfold pr_description dget
    rw [h]
    simp [value_extractor, hv]

theorem c9_witness :
    pr_package_id [] {} = set_mod_invalid {}
    ∧ pr_description [] { variant := ModVariant.ruled }
      = set_mod_invalid { variant := ModVariant.ruled } :=
  ⟨c9_extractor_sentinels_give_none.2.2.1 [] {} rfl,
   c9_extractor_sentinels_give_none.2.2.2 [] { variant := ModVariant.ruled } rfl (by decide)⟩

/-- C10: a plural "authors" field that extracts to a non-empty string is
character-exploded by `list.extend`: each character becomes its own
author entry, and the authors step leaves the validity flag untouched. -/
theorem c10_authors_string_explodes :
    ∀ (d : Dict) (m : ListedMod) (s : String),
      value_extractor (dget d "author" (.bool false)) = none →
      value_extractor (dget d "authors" (.bool false)) = some (.str s) →
      s.data ≠ [] →
      (pr_authors d m).authors
        = m.authors ++ s.data.map (fun c => Node.str (String.mk [c]))
      ∧ (pr_authors d m).valid = m.valid := by
  intro d m s h1 h2 h3
  have hempty : s.data.isEmpty = false := by
    cases hs : s.data with
    | nil => exact absurd hs h3
    | cons a l => rfl
  unfold pr_authors
  rw [h1, h2]
  simp [optTruthy, nodeTruthy, extendNodes, hempty]

theorem c10_witness :
    (pr_authors [("authors", Node.str "ab")] {}).authors
      = ({} : ListedMod).authors ++ ("ab".data.map (fun c => Node.str (String.mk [c])))
    ∧ (pr_authors [("authors", Node.str "ab")] {}).valid = ({} : ListedMod).valid :=
  c10_authors_string_explodes [("authors", Node.str "ab")] {} "ab" rfl rfl (by decide)
